import Mathlib

/-!
Verification of the image-to-PDF converter in `src/app/page.tsx`
(component `ImageToPdfConverter`).

The component keeps an ordered list of images (data-URL strings), lets the
user remove entries, imports files from a gallery, and assembles the images
into a PDF, one page per image.  The development below is a shallow
embedding of those operations:

* a queued image is abstracted by the facts the code observes about it
  (pixel dimensions and whether each browser/library step succeeds);
* `generatePDF` is modelled as a state transition on a `Session`, returning
  the new session, the produced document (a list of pages), and the trace of
  observable events (toasts, object-URL revocations and creations);
* the JavaScript numbers involved in page-size arithmetic are modelled as
  exact rationals (the spec allows rounding tolerance, and every claim below
  is stated about the exact arithmetic);
* `await` points that can suspend forever are modelled explicitly: the code
  waits for an image `load` event with no `error` handler, so an image whose
  `load` event never fires suspends the whole generation (outcome
  `Assembled.hang` below).
-/

/-- A queued image (a data-URL string in `images : string[]`), abstracted by
what `generatePDF` (page.tsx lines 295-374) observes about it.

* `width`, `height`: the decoded pixel dimensions (`img.width`/`img.height`,
  also the dimensions of the canvas re-encode and of the embedded PNG).
* `loads`: whether the browser fires the `load` event for this data URL.
  The code does `await new Promise((resolve) => { img.onload = resolve })`
  with no `onerror` and no timeout (lines 302-304), so when the event never
  fires (an undecodable image) the `await` never resumes.
* `ctxOk`: `canvas.getContext("2d")` returns a context (lines 311-312;
  on `null` the code does `continue`, skipping the image).
* `embedOk`: the base64 decode and `pdfDoc.embedPng` steps (lines 321-331)
  do not throw; a thrown error is caught by the per-image `catch`
  (lines 370-373) and the image is skipped. -/
structure Image where
  width : ℚ
  height : ℚ
  loads : Bool
  ctxOk : Bool
  embedOk : Bool
  deriving DecidableEq

/-- The constant footer stamp drawn by `page.drawText` (page.tsx
lines 363-369): text, position, font size and RGB color. -/
structure Footer where
  text : String
  x : ℚ
  y : ℚ
  fontSize : ℚ
  r : ℚ
  g : ℚ
  b : ℚ
  deriving DecidableEq

/-- One emitted PDF page: the page size passed to `pdfDoc.addPage`, the
placement and size of the drawn image, and the footer stamp. -/
structure Page where
  pageWidth : ℚ
  pageHeight : ℚ
  imgX : ℚ
  imgY : ℚ
  imgW : ℚ
  imgH : ℚ
  footer : Footer
  deriving DecidableEq

/-- The constant `MAX_WIDTH` of page.tsx line 334: US Letter width minus
margins, `792 - 40`. -/
def MAX_WIDTH : ℚ := 792 - 40

/-- The constant `MAX_HEIGHT` of page.tsx line 335: US Letter height minus
margins, `612 - 60`. -/
def MAX_HEIGHT : ℚ := 612 - 60

/-- First scaling step (page.tsx lines 340-343): if the width exceeds
`MAX_WIDTH`, scale both dimensions so the width becomes `MAX_WIDTH`. -/
def scaleWidth (w h : ℚ) : ℚ × ℚ :=
  if MAX_WIDTH < w then (MAX_WIDTH, h * MAX_WIDTH / w) else (w, h)

/-- Second scaling step (page.tsx lines 345-348): if the (possibly already
adjusted) height exceeds `MAX_HEIGHT`, scale both dimensions so the height
becomes `MAX_HEIGHT`. -/
def scaleHeight (w h : ℚ) : ℚ × ℚ :=
  if MAX_HEIGHT < h then (w * MAX_HEIGHT / h, MAX_HEIGHT) else (w, h)

/-- The full content-dimension computation of page.tsx lines 337-348:
width constraint first, then height constraint. -/
def scaleDims (w h : ℚ) : ℚ × ℚ :=
  let p := scaleWidth w h
  scaleHeight p.1 p.2

/-- The footer drawn on every page (page.tsx lines 363-369): a single space
character at `(20, 20)`, font size 12, color `rgb(0.3, 0.3, 0.3)`. -/
def footerStamp : Footer :=
  { text := " ", x := 20, y := 20, fontSize := 12, r := 3/10, g := 3/10, b := 3/10 }

/-- Page construction for one image whose `load` event fired (page.tsx
lines 306-369): skip (`none`) when the canvas context is unavailable or the
embed step throws; otherwise emit a page of size content + margins
`(w + 40, h + 60)` with the image drawn at `(20, 40)` and the footer stamp. -/
def processLoaded (img : Image) : Option Page :=
  if !img.ctxOk then none
  else if !img.embedOk then none
  else
    let wh := scaleDims img.width img.height
    some { pageWidth := wh.1 + 40, pageHeight := wh.2 + 60,
           imgX := 20, imgY := 40, imgW := wh.1, imgH := wh.2,
           footer := footerStamp }

/-- Outcome of running (part of) the assembly loop: either every awaited
`load` event fired and a list of pages was produced, or some image never
fired its `load` event and the loop is suspended forever. -/
inductive Assembled where
  | hang
  | done (pages : List Page)
  deriving DecidableEq

/-- The inner `for (const imageData of batch)` loop of page.tsx
lines 295-374: each image is awaited in order; an image whose `load` event
never fires suspends the loop (`hang`); otherwise the image either
contributes a page or is skipped. -/
def processBatch : List Image → Assembled
  | [] => .done []
  | img :: rest =>
    if img.loads then
      match processLoaded img, processBatch rest with
      | _, .hang => .hang
      | some p, .done ps => .done (p :: ps)
      | none, .done ps => .done ps
    else .hang

/-- The body of the `for (let batchIndex = ...)` loop of page.tsx
lines 289-378 (`batchSize` is the constant 3 of line 286): slice the batch
`images.slice(batchIndex * 3, min((batchIndex + 1) * 3, images.length))`
and process it, appending its pages; a suspended earlier batch stays
suspended. -/
def assembleStep (images : List Image) (acc : Assembled) (batchIndex : Nat) : Assembled :=
  match acc with
  | .hang => .hang
  | .done ps =>
    let batchStart := batchIndex * 3
    let batchEnd := min ((batchIndex + 1) * 3) images.length
    let batch := (images.drop batchStart).take (batchEnd - batchStart)
    match processBatch batch with
    | .hang => .hang
    | .done ps2 => .done (ps ++ ps2)

/-- The batched assembly loop of page.tsx lines 286-378: the queue is cut
into `totalBatches = Math.ceil(n / 3)` slices processed in order (with a UI
yield between batches, which has no effect on the produced pages). -/
def assemblePages (images : List Image) : Assembled :=
  let totalBatches := (images.length + 3 - 1) / 3
  (List.range totalBatches).foldl (assembleStep images) (.done [])

/-- An observable side effect of the component: a toast notification (by
title), a toast whose description reports a count, the revocation of an
object URL, or the creation of an object URL. -/
inductive Event where
  | toast (title : String)
  | toastCount (title : String) (count : Nat)
  | revoke (url : Nat)
  | create (url : Nat)
  deriving DecidableEq

/-- The component state touched by `generatePDF`: the image queue, the
current object URL (`pdfUrl`), the set of allocated-and-unrevoked object
URLs together with a fresh-URL counter (modelling `URL.createObjectURL` /
`URL.revokeObjectURL`), the camera flag and the per-operation loading
flags, and the error banner. -/
structure Session where
  images : List Image
  pdfUrl : Option Nat
  liveUrls : List Nat
  nextUrl : Nat
  cameraActive : Bool
  isLoadingCamera : Bool
  isLoadingCapture : Bool
  isLoadingPdf : Bool
  error : Option String
  deriving DecidableEq

/-- The function `generatePDF` (page.tsx lines 262-403) as a state
transition.  Returns
the new session, the document made available (`some pages` exactly when a
new object URL was created), and the trace of observable events in order.

* Empty queue (lines 263-270): a destructive toast, early return, nothing
  else touched.
* Otherwise: the pdf loading flag is set and the error cleared
  (lines 272-273); any previous object URL is revoked and `pdfUrl` cleared
  (lines 276-279) before the document work starts; then the batched
  assembly runs.  If some image never fires `load`, the `await` inside the
  loop never resumes: no further statement of the function (including the
  `finally`) runs, so the session is left with the loading flag stuck and
  no document (`Assembled.hang` case).  Otherwise the document is saved, a
  fresh object URL is created and stored, the loading flag is reset by the
  `finally`, and a success toast is shown (lines 381-401). -/
def generatePDF (s : Session) : Session × Option (List Page) × List Event :=
  if s.images.isEmpty then
    (s, none, [.toast "No Images"])
  else
    let s1 := { s with isLoadingPdf := true, error := none }
    let revoked :=
      match s1.pdfUrl with
      | some u => ({ s1 with pdfUrl := none, liveUrls := s1.liveUrls.erase u },
                   [Event.revoke u])
      | none => (s1, ([] : List Event))
    let s2 := revoked.1
    match assemblePages s.images with
    | .hang => (s2, none, revoked.2)
    | .done pages =>
      let u := s2.nextUrl
      let s3 := { s2 with
        pdfUrl := some u
        liveUrls := s2.liveUrls ++ [u]
        nextUrl := u + 1
        isLoadingPdf := false }
      (s3, some pages, revoked.2 ++ [Event.create u, Event.toast "PDF Generated"])

/-- The function `removeImage` (page.tsx lines 253-259): the new queue is
`prev.filter((_, i) => i !== index)` - keep every element whose position
differs from `index`. -/
def removeImage {α : Type*} (images : List α) (index : Nat) : List α :=
  (images.enum.filter (fun p => p.1 != index)).map Prod.snd

/-- A file handed to `handleFileSelect` (page.tsx lines 153-250),
abstracted by what the code observes about it.

* `size`: `file.size` in bytes.
* `readOk`: the `FileReader` fires `onload` with a string result (on
  failure `onerror` fires instead, lines 233-241).
* `loads`: the `Image` created from the data URL fires its `load` event
  (lines 190-191; there is no `onerror` on this `Image`, so a file whose
  data decodes to no image simply never advances).
* `width`, `height`: the decoded pixel dimensions. -/
structure ImportFile where
  size : Nat
  readOk : Bool
  loads : Bool
  ctxOk : Bool
  width : Nat
  height : Nat
  deriving DecidableEq

/-- A normalized bitmap appended to the image queue by the gallery import:
the canvas dimensions after the optional downsampling. -/
structure GalleryImage where
  width : ℤ
  height : ℤ
  deriving DecidableEq

/-- JavaScript `Math.round` on a non-negative rational: round half up. -/
def jsRound (x : ℚ) : ℤ := Int.floor (x + 1/2)

/-- The downsampling step of page.tsx lines 192-210: if either dimension
exceeds 1800 (`MAX_WIDTH`/`MAX_HEIGHT` of the import path), scale the
larger dimension to 1800 and round the other, preserving aspect ratio. -/
def resizeFile (f : ImportFile) : GalleryImage :=
  let w : ℚ := f.width
  let h : ℚ := f.height
  if 1800 < f.width ∨ 1800 < f.height then
    if f.height < f.width then
      { width := 1800, height := jsRound (h * (1800 / w)) }
    else
      { width := jsRound (w * (1800 / h)), height := 1800 }
  else
    { width := f.width, height := f.height }

/-- Mutable state threaded through the import callbacks: the shared
`loadedCount` counter, the images appended so far, and the emitted events. -/
structure FState where
  loadedCount : Nat
  images : List GalleryImage
  events : List Event
  deriving DecidableEq

/-- One asynchronous completion for a file that passed the size check
(page.tsx lines 185-243).

* `onerror` (lines 233-241): increment `loadedCount`, show a "File Error"
  toast; no aggregate-report check happens on this path.
* read succeeds but the image never fires `load`: nothing further runs for
  this file - `loadedCount` is never incremented for it.
* image loads (lines 191-227): if a canvas context is available the
  normalized bitmap is appended; in either case `loadedCount` is
  incremented and, exactly when it now equals `totalFiles`, the aggregate
  "Images Loaded" toast reports `loadedCount`. -/
def asyncStep (totalFiles : Nat) (st : FState) (f : ImportFile) : FState :=
  if f.readOk then
    if f.loads then
      let st1 := if f.ctxOk then { st with images := st.images ++ [resizeFile f] } else st
      let c := st1.loadedCount + 1
      let evs := if c = totalFiles then [Event.toastCount "Images Loaded" c] else []
      { st1 with loadedCount := c, events := st1.events ++ evs }
    else st
  else
    { st with
      loadedCount := st.loadedCount + 1
      events := st.events ++ [Event.toast "File Error"] }

/-- The synchronous pass of the `forEach` (page.tsx lines 173-244): every
oversized file (> 5 MB) immediately increments `loadedCount` and shows a
"File too large" toast; the others start a `FileReader` (their completions
run later).  Returns the count, the toasts, and the pending files in
order. -/
def syncStep (acc : Nat × List Event × List ImportFile) (f : ImportFile) :
    Nat × List Event × List ImportFile :=
  if 5 * 1024 * 1024 < f.size then
    (acc.1 + 1, acc.2.1 ++ [Event.toast "File too large"], acc.2.2)
  else
    (acc.1, acc.2.1, acc.2.2 ++ [f])

/-- The whole synchronous pass: fold `syncStep` over the accepted files in
selection order. -/
def syncPhase (files : List ImportFile) : Nat × List Event × List ImportFile :=
  files.foldl syncStep (0, [], [])

/-- The function `handleFileSelect` (page.tsx lines 153-250): empty
selection returns at
once; otherwise at most 10 files are processed (with a "Too many files"
toast when the selection was larger), the synchronous size checks run
first, and then the asynchronous completions run (modelled here in file
order, the one schedule the claims below depend on fixes at most one
asynchronous file).  Returns the appended images and the event trace. -/
def handleFileSelect (files : List ImportFile) : FState :=
  if files.length = 0 then ⟨0, [], []⟩
  else
    let filesToProcess := files.take 10
    let totalFiles := filesToProcess.length
    let ev0 : List Event := if 10 < files.length then [Event.toast "Too many files"] else []
    let sync := syncPhase filesToProcess
    let st0 : FState := ⟨sync.1, [], ev0 ++ sync.2.1⟩
    sync.2.2.foldl (asyncStep totalFiles) st0

/-- The aggregate "Images Loaded" reports (and the counts they carry)
occurring in an event trace. -/
def aggregateReports (evs : List Event) : List Nat :=
  evs.filterMap fun e =>
    match e with
    | Event.toastCount t c => if t = "Images Loaded" then some c else none
    | _ => none

/-- How many toasts with the given title occur in an event trace. -/
def countToast (title : String) (evs : List Event) : Nat :=
  evs.countP fun e => e == Event.toast title

lemma scaleWidth_facts (w h : ℚ) (hw : 0 < w) (hh : 0 < h) :
    0 < (scaleWidth w h).1 ∧ (scaleWidth w h).1 ≤ 752 ∧ 0 < (scaleWidth w h).2 ∧
      (scaleWidth w h).1 * h = (scaleWidth w h).2 * w := by
  unfold scaleWidth MAX_WIDTH
  norm_num
  split_ifs with hcase
  · refine ⟨by norm_num, le_refl _, by positivity, ?_⟩
    field_simp
    ring
  · exact ⟨hw, by linarith, hh, by ring⟩

lemma scaleHeight_facts (w h : ℚ) (hw : 0 < w) (hw2 : w ≤ 752) (hh : 0 < h) :
    (scaleHeight w h).1 ≤ 752 ∧ (scaleHeight w h).2 ≤ 552 ∧
      (scaleHeight w h).1 * h = (scaleHeight w h).2 * w := by
  unfold scaleHeight MAX_HEIGHT
  norm_num
  split_ifs with hcase
  · refine ⟨?_, le_refl _, ?_⟩
    · rw [div_le_iff₀ hh]
      nlinarith
    · field_simp
      ring
  · exact ⟨hw2, by linarith, by ring⟩

/-- C3: for an image whose pixel dimensions exceed the content bounds, the
content dimensions computed by `generatePDF` satisfy `width ≤ 752` and
`height ≤ 552`; the width constraint is applied first and the height
constraint second, and each step preserves the aspect ratio (stated as a
cross-multiplication identity). -/
theorem scaleDims_bounds_and_aspect (w h : ℚ) (hw : 0 < w) (hh : 0 < h)
    (hex : 752 < w ∨ 552 < h) :
    (scaleDims w h).1 ≤ 752 ∧ (scaleDims w h).2 ≤ 552 ∧
      scaleDims w h = scaleHeight (scaleWidth w h).1 (scaleWidth w h).2 ∧
      (scaleWidth w h).1 * h = (scaleWidth w h).2 * w ∧
      (scaleDims w h).1 * (scaleWidth w h).2 = (scaleDims w h).2 * (scaleWidth w h).1 := by
  obtain ⟨h1, h2, h3, h4⟩ := scaleWidth_facts w h hw hh
  obtain ⟨g1, g2, g3⟩ := scaleHeight_facts (scaleWidth w h).1 (scaleWidth w h).2 h1 h2 h3
  exact ⟨g1, g2, rfl, h4, g3⟩

/-- Witness for `scaleDims_bounds_and_aspect` at the concrete input
`1504 × 376`. -/
theorem scaleDims_bounds_and_aspect_witness :
    (0 : ℚ) < 1504 ∧ (0 : ℚ) < 376 ∧ ((752 : ℚ) < 1504 ∨ (552 : ℚ) < 376) ∧
      ((scaleDims 1504 376).1 ≤ 752 ∧ (scaleDims 1504 376).2 ≤ 552 ∧
        scaleDims 1504 376 = scaleHeight (scaleWidth 1504 376).1 (scaleWidth 1504 376).2 ∧
        (scaleWidth 1504 376).1 * 376 = (scaleWidth 1504 376).2 * 1504 ∧
        (scaleDims 1504 376).1 * (scaleWidth 1504 376).2 =
          (scaleDims 1504 376).2 * (scaleWidth 1504 376).1) :=
  ⟨by norm_num, by norm_num, Or.inl (by norm_num),
    scaleDims_bounds_and_aspect 1504 376 (by norm_num) (by norm_num)
      (Or.inl (by norm_num))⟩

/-- C9: for an image whose pixel width is at most 752 and pixel height is
at most 552, the content dimensions computed by `generatePDF` equal the
source dimensions exactly - no scaling is applied. -/
theorem scaleDims_within_bounds_identity (w h : ℚ) (hw : w ≤ 752) (hh : h ≤ 552) :
    scaleDims w h = (w, h) := by
  have h1 : scaleWidth w h = (w, h) := by
    unfold scaleWidth MAX_WIDTH
    rw [if_neg (by norm_num; linarith)]
  have h2 : scaleHeight w h = (w, h) := by
    unfold scaleHeight MAX_HEIGHT
    rw [if_neg (by norm_num; linarith)]
  show scaleHeight (scaleWidth w h).1 (scaleWidth w h).2 = (w, h)
  rw [h1]
  exact h2

/-- Witness for `scaleDims_within_bounds_identity` at the concrete input
`600 × 450`. -/
theorem scaleDims_within_bounds_identity_witness :
    (600 : ℚ) ≤ 752 ∧ (450 : ℚ) ≤ 552 ∧ scaleDims 600 450 = (600, 450) :=
  ⟨by norm_num, by norm_num,
    scaleDims_within_bounds_identity 600 450 (by norm_num) (by norm_num)⟩

lemma enumFrom_filter_ne_of_lt {α : Type*} (l : List α) (j : Nat) :
    ∀ n, j < n → ((List.enumFrom n l).filter (fun p => p.1 != j)).map Prod.snd = l := by
  induction l with
  | nil => intro n _; rfl
  | cons a l ih =>
    intro n h
    have hne : (((n, a) : Nat × α).1 != j) = true := by
      simp only [bne_iff_ne, ne_eq]
      omega
    simp only [List.enumFrom_cons, List.filter_cons, hne, if_true, List.map_cons]
    rw [ih (n + 1) (by omega)]

lemma enumFrom_filter_ne_eq_take_drop {α : Type*} (l : List α) (j : Nat) :
    ∀ n, n ≤ j → ((List.enumFrom n l).filter (fun p => p.1 != j)).map Prod.snd
      = l.take (j - n) ++ l.drop (j - n + 1) := by
  induction l with
  | nil => intro n _; simp
  | cons a l ih =>
    intro n h
    by_cases hnj : n = j
    · subst hnj
      have hbe : (((n, a) : Nat × α).1 != n) = false := by simp
      simp only [List.enumFrom_cons, List.filter_cons, hbe, Bool.false_eq_true, if_false]
      rw [enumFrom_filter_ne_of_lt l n (n + 1) (by omega)]
      simp
    · have hlt : n < j := by omega
      have hbe : (((n, a) : Nat × α).1 != j) = true := by
        simp only [bne_iff_ne, ne_eq]
        omega
      simp only [List.enumFrom_cons, List.filter_cons, hbe, if_true, List.map_cons]
      rw [ih (n + 1) (by omega)]
      have h1 : j - n = (j - (n + 1)) + 1 := by omega
      rw [h1, List.take_succ_cons, List.drop_succ_cons, List.cons_append]

/-- C7: `removeImage l i` always equals `l.take i ++ l.drop (i + 1)`: for an
in-range index this removes exactly the entry at `i`, keeping the remaining
elements in their original relative order and shrinking the queue by one;
for an out-of-range index it is a silent no-op. -/
theorem removeImage_spec {α : Type*} (l : List α) (i : Nat) :
    removeImage l i = l.take i ++ l.drop (i + 1) ∧
      (i < l.length → (removeImage l i).length = l.length - 1) ∧
      (l.length ≤ i → removeImage l i = l) := by
  have hmain : removeImage l i = l.take i ++ l.drop (i + 1) := by
    unfold removeImage List.enum
    simpa using enumFrom_filter_ne_eq_take_drop l i 0 (Nat.zero_le i)
  refine ⟨hmain, ?_, ?_⟩
  · intro h
    rw [hmain]
    simp only [List.length_append, List.length_take, List.length_drop]
    omega
  · intro h
    rw [hmain, List.take_of_length_le (by omega), List.drop_eq_nil_of_le (by omega),
      List.append_nil]

/-- Witness for `removeImage_spec` at concrete queues: an in-range removal
and an out-of-range no-op. -/
theorem removeImage_spec_witness :
    (removeImage (["a", "b", "c"] : List String) 1 = ["a", "c"] ∧
      (1 : Nat) < 3 ∧ (removeImage (["a", "b", "c"] : List String) 1).length = 3 - 1) ∧
      ((3 : Nat) ≤ 7 ∧ removeImage (["a", "b", "c"] : List String) 7 = ["a", "b", "c"]) := by
  have h := removeImage_spec (["a", "b", "c"] : List String) 1
  have h2 := removeImage_spec (["a", "b", "c"] : List String) 7
  exact ⟨⟨by simpa using h.1, by decide, h.2.1 (by decide)⟩, by decide, h2.2.2 (by decide)⟩

/-- C6: invoking `generatePDF` on an empty queue emits exactly the
"No Images" warning toast, produces no document and no object URL, and
returns every piece of session state (queue, document reference, camera
flag, loading flags, error banner) unchanged. -/
theorem generatePDF_empty_queue_no_mutation (s : Session) (h : s.images = []) :
    generatePDF s = (s, none, [Event.toast "No Images"]) := by
  unfold generatePDF
  rw [if_pos (by simp [h])]

/-- An all-defaults session with an empty queue, used as a concrete
witness. -/
def sessionEmpty : Session :=
  { images := [], pdfUrl := none, liveUrls := [], nextUrl := 0, cameraActive := false,
    isLoadingCamera := false, isLoadingCapture := false, isLoadingPdf := false,
    error := none }

/-- Witness for `generatePDF_empty_queue_no_mutation` on a concrete empty
session. -/
theorem generatePDF_empty_queue_no_mutation_witness :
    sessionEmpty.images = [] ∧
      generatePDF sessionEmpty = (sessionEmpty, none, [Event.toast "No Images"]) :=
  ⟨rfl, generatePDF_empty_queue_no_mutation sessionEmpty rfl⟩

/-- C5: when `generatePDF` runs with a previous document URL held (and the
session's URL bookkeeping is consistent: the held URL is the single live
one and was allocated earlier than the fresh counter), the very first
observable event is the revocation of that URL - so the previous transient
reference is released before the new document's URL is created - and
afterwards at most one URL is live and the held document reference is never
the old one. -/
theorem generatePDF_releases_previous_url_first (s : Session) (u : Nat)
    (hne : s.images ≠ []) (hurl : s.pdfUrl = some u) (hlive : s.liveUrls = [u])
    (hfresh : u < s.nextUrl) :
    ((generatePDF s).2.2).head? = some (Event.revoke u) ∧
      (generatePDF s).1.liveUrls.length ≤ 1 ∧
      ∀ v, (generatePDF s).1.pdfUrl = some v → v ≠ u := by
  have hie : s.images.isEmpty = false := by simpa using hne
  unfold generatePDF
  rw [hie]
  simp only [Bool.false_eq_true, if_false, hurl, hlive]
  cases hassem : assemblePages s.images with
  | hang => simp [List.erase_cons_head]
  | done pages =>
    simp only [List.erase_cons_head, List.nil_append]
    refine ⟨rfl, by simp, ?_⟩
    intro v hv
    simp only [Option.some.injEq] at hv
    omega

/-- A fully valid queued image: every processing step succeeds. -/
def imgOk : Image :=
  { width := 100, height := 100, loads := true, ctxOk := true, embedOk := true }

/-- A session holding a previously generated document URL `0`. -/
def sessionHeld : Session :=
  { images := [imgOk], pdfUrl := some 0, liveUrls := [0], nextUrl := 1,
    cameraActive := false, isLoadingCamera := false, isLoadingCapture := false,
    isLoadingPdf := false, error := none }

/-- Witness for `generatePDF_releases_previous_url_first` on the concrete
session `sessionHeld`. -/
theorem generatePDF_releases_previous_url_first_witness :
    sessionHeld.images ≠ [] ∧ sessionHeld.pdfUrl = some 0 ∧
      sessionHeld.liveUrls = [0] ∧ 0 < sessionHeld.nextUrl ∧
      (((generatePDF sessionHeld).2.2).head? = some (Event.revoke 0) ∧
        (generatePDF sessionHeld).1.liveUrls.length ≤ 1 ∧
        ∀ v, (generatePDF sessionHeld).1.pdfUrl = some v → v ≠ 0) :=
  ⟨by decide, rfl, rfl, by decide,
    generatePDF_releases_previous_url_first sessionHeld 0 (by decide) rfl rfl
      (by decide)⟩

/-- A queued image whose data URL the browser cannot decode: its `load`
event never fires. -/
def imgCorrupt : Image :=
  { width := 100, height := 100, loads := false, ctxOk := true, embedOk := true }

/-- A session queueing five images of which the third is undecodable. -/
def sessionFive : Session :=
  { images := [imgOk, imgOk, imgCorrupt, imgOk, imgOk], pdfUrl := none, liveUrls := [],
    nextUrl := 0, cameraActive := false, isLoadingCamera := false,
    isLoadingCapture := false, isLoadingPdf := false, error := none }

/-- C1 (code bug): with five queued images of which one is undecodable,
`generatePDF` does not skip the corrupt image and continue - the `await` of
its `load` event (which has no `error` handler) never resumes, so the run
produces no document, emits no event at all (in particular no success
toast), and leaves the pdf loading flag stuck at `true`. -/
theorem generatePDF_corrupt_image_hangs :
    (generatePDF sessionFive).2.1 = none ∧
      (generatePDF sessionFive).2.2 = [] ∧
      (generatePDF sessionFive).1.isLoadingPdf = true ∧
      assemblePages sessionFive.images = Assembled.hang := by
  refine ⟨?_, ?_, ?_, ?_⟩ <;> rfl

lemma processBatch_all_loads (batch : List Image) (h : ∀ i ∈ batch, i.loads = true) :
    processBatch batch = Assembled.done (batch.filterMap processLoaded) := by
  induction batch with
  | nil => rfl
  | cons img rest ih =>
    have hl : img.loads = true := h img (by simp)
    have ihr := ih fun i hi => h i (by simp [hi])
    simp only [processBatch, hl, if_true, ihr, List.filterMap_cons]
    cases hp : processLoaded img <;> simp [hp]

lemma take_batch_step {α : Type*} (l : List α) (m : Nat) :
    l.take (m * 3) ++ (l.drop (m * 3)).take (min ((m + 1) * 3) l.length - m * 3)
      = l.take ((m + 1) * 3) := by
  rcases le_or_lt l.length (m * 3) with hle | hlt
  · rw [List.drop_eq_nil_of_le hle, List.take_of_length_le hle,
      List.take_of_length_le (show l.length ≤ (m + 1) * 3 by omega)]
    simp
  · rcases le_or_lt ((m + 1) * 3) l.length with hle2 | hlt2
    · rw [← List.take_add]
      congr 1
      omega
    · rw [← List.take_add,
        (by omega : m * 3 + (min ((m + 1) * 3) l.length - m * 3) = l.length),
        List.take_length, List.take_of_length_le (by omega)]

lemma foldl_assembleStep_done (images : List Image) (h : ∀ i ∈ images, i.loads = true) :
    ∀ (m : Nat) (acc : List Page),
      (List.range m).foldl (assembleStep images) (Assembled.done acc)
        = Assembled.done (acc ++ (images.take (m * 3)).filterMap processLoaded) := by
  intro m
  induction m with
  | zero => intro acc; simp
  | succ m ih =>
    intro acc
    rw [List.range_succ, List.foldl_append, ih acc, List.foldl_cons, List.foldl_nil]
    have hbatch := processBatch_all_loads
      ((images.drop (m * 3)).take (min ((m + 1) * 3) images.length - m * 3))
      (fun i hi => h i (List.drop_subset _ _ (List.take_subset _ _ hi)))
    simp only [assembleStep, hbatch]
    rw [List.append_assoc, ← List.filterMap_append, take_batch_step]

/-- When every queued image is decodable, the batched assembly is exactly a
filter-map over the queue: one page per successfully processed image, in
queue order. -/
lemma assemblePages_all_loads (images : List Image) (h : ∀ i ∈ images, i.loads = true) :
    assemblePages images = Assembled.done (images.filterMap processLoaded) := by
  show (List.range ((images.length + 3 - 1) / 3)).foldl (assembleStep images)
      (Assembled.done []) = _
  rw [foldl_assembleStep_done images h ((images.length + 3 - 1) / 3) [],
    List.nil_append, List.take_of_length_le (by omega)]

/-- C2 (amended): for every non-empty queue all of whose images are
decodable, `generatePDF` produces a document whose pages are exactly
`filterMap processLoaded` of the queue - one page per successfully
processed image, in queue order (the batches of 3 are taken from the front
in order and concatenated). -/
theorem generatePDF_pages_in_queue_order (s : Session)
    (hne : s.images ≠ []) (hloads : ∀ i ∈ s.images, i.loads = true) :
    (generatePDF s).2.1 = some (s.images.filterMap processLoaded) := by
  have hie : s.images.isEmpty = false := by simpa using hne
  cases hurl : s.pdfUrl with
  | none => simp [generatePDF, hie, hurl, assemblePages_all_loads s.images hloads]
  | some u => simp [generatePDF, hie, hurl, assemblePages_all_loads s.images hloads]

/-- A session with a single valid queued image. -/
def sessionOne : Session :=
  { images := [imgOk], pdfUrl := none, liveUrls := [], nextUrl := 0,
    cameraActive := false, isLoadingCamera := false, isLoadingCapture := false,
    isLoadingPdf := false, error := none }

/-- Witness for `generatePDF_pages_in_queue_order` on a concrete one-image
session. -/
theorem generatePDF_pages_in_queue_order_witness :
    sessionOne.images ≠ [] ∧ (∀ i ∈ sessionOne.images, i.loads = true) ∧
      (generatePDF sessionOne).2.1 = some (sessionOne.images.filterMap processLoaded) :=
  ⟨by decide, by decide,
    generatePDF_pages_in_queue_order sessionOne (by decide) (by decide)⟩

/-- A session queueing one valid image followed by one undecodable image. -/
def sessionPair : Session :=
  { images := [imgOk, imgCorrupt], pdfUrl := none, liveUrls := [], nextUrl := 0,
    cameraActive := false, isLoadingCamera := false, isLoadingCapture := false,
    isLoadingPdf := false, error := none }

/-- Counterexample to C2 as stated: on the non-empty queue
`[imgOk, imgCorrupt]` the run suspends on the undecodable image, so
`generatePDF` produces no document at all - not a document with one page
per successfully processed image. -/
theorem generatePDF_undecodable_no_document :
    sessionPair.images ≠ [] ∧ (generatePDF sessionPair).2.1 = none := by
  exact ⟨by decide, rfl⟩

lemma processLoaded_footer (img : Image) (p : Page) (h : processLoaded img = some p) :
    p.footer = footerStamp := by
  unfold processLoaded at h
  split_ifs at h
  · simp only [Option.some.injEq] at h
    rw [← h]

lemma processBatch_footer (batch : List Image) :
    ∀ (ps : List Page), processBatch batch = Assembled.done ps →
      ∀ p ∈ ps, p.footer = footerStamp := by
  induction batch with
  | nil =>
    intro ps h
    simp only [processBatch, Assembled.done.injEq] at h
    simp [← h]
  | cons img rest ih =>
    intro ps h
    simp only [processBatch] at h
    by_cases hl : img.loads = true
    · rw [hl] at h
      simp only [if_true] at h
      cases hr : processBatch rest with
      | hang => rw [hr] at h; cases hp : processLoaded img <;> rw [hp] at h <;> cases h
      | done qs =>
        rw [hr] at h
        cases hp : processLoaded img with
        | none =>
          rw [hp] at h
          simp only [Assembled.done.injEq] at h
          subst h
          exact ih qs hr
        | some p0 =>
          rw [hp] at h
          simp only [Assembled.done.injEq] at h
          subst h
          intro p hp2
          rcases List.mem_cons.mp hp2 with hp3 | hp3
          · subst hp3; exact processLoaded_footer img p hp
          · exact ih qs hr p hp3
    · simp only [Bool.not_eq_true] at hl
      rw [hl] at h
      simp at h

lemma foldl_assembleStep_footer (images : List Image) :
    ∀ (m : Nat) (acc : List Page) (ps : List Page),
      (∀ p ∈ acc, p.footer = footerStamp) →
      (List.range m).foldl (assembleStep images) (Assembled.done acc) = Assembled.done ps →
      ∀ p ∈ ps, p.footer = footerStamp := by
  intro m
  induction m with
  | zero =>
    intro acc ps hacc h
    simp only [List.range_zero, List.foldl_nil, Assembled.done.injEq] at h
    subst h
    exact hacc
  | succ m ih =>
    intro acc ps hacc h
    rw [List.range_succ, List.foldl_append, List.foldl_cons, List.foldl_nil] at h
    cases hmid : (List.range m).foldl (assembleStep images) (Assembled.done acc) with
    | hang => rw [hmid] at h; simp [assembleStep] at h
    | done qs =>
      rw [hmid] at h
      have hqs := ih acc qs hacc hmid
      simp only [assembleStep] at h
      cases hb : processBatch
          ((images.drop (m * 3)).take (min ((m + 1) * 3) images.length - m * 3)) with
      | hang => rw [hb] at h; cases h
      | done ps2 =>
        rw [hb] at h
        simp only [Assembled.done.injEq] at h
        subst h
        intro p hp
        rcases List.mem_append.mp hp with hp2 | hp2
        · exact hqs p hp2
        · exact processBatch_footer _ ps2 hb p hp2

/-- C10: every page of a document `generatePDF` successfully assembles
carries the constant footer stamp: `drawText` of the single space character
`" "` at offset `(20, 20)`, Helvetica at font size 12, color
`rgb(0.3, 0.3, 0.3)` - so the footer renders no visible glyphs. -/
theorem generatePDF_footer_blank (s : Session) (pages : List Page)
    (h : (generatePDF s).2.1 = some pages) :
    ∀ p ∈ pages, p.footer = footerStamp := by
  by_cases hie : s.images.isEmpty
  · unfold generatePDF at h
    rw [if_pos hie] at h
    cases h
  · have hie2 : s.images.isEmpty = false := by simpa using hie
    have hassem : assemblePages s.images = Assembled.done pages := by
      cases hurl : s.pdfUrl with
      | none =>
        cases ha : assemblePages s.images with
        | hang => simp [generatePDF, hie2, hurl, ha] at h
        | done qs => simp [generatePDF, hie2, hurl, ha] at h; rw [h]
      | some u =>
        cases ha : assemblePages s.images with
        | hang => simp [generatePDF, hie2, hurl, ha] at h
        | done qs => simp [generatePDF, hie2, hurl, ha] at h; rw [h]
    have hfold : (List.range ((s.images.length + 3 - 1) / 3)).foldl
        (assembleStep s.images) (Assembled.done []) = Assembled.done pages := hassem
    exact foldl_assembleStep_footer s.images ((s.images.length + 3 - 1) / 3) [] pages
      (by simp) hfold

/-- The page produced from `imgOk` (a 100 × 100 image: no scaling, page
140 × 160, image drawn at (20, 40)). -/
def pageOk : Page :=
  { pageWidth := 140, pageHeight := 160, imgX := 20, imgY := 40, imgW := 100,
    imgH := 100, footer := footerStamp }

lemma generatePDF_sessionOne_doc : (generatePDF sessionOne).2.1 = some [pageOk] := by
  norm_num [generatePDF, sessionOne, imgOk, assemblePages, assembleStep, processBatch,
    processLoaded, scaleDims, scaleWidth, scaleHeight, MAX_WIDTH, MAX_HEIGHT, pageOk,
    List.range_succ]

/-- Witness for `generatePDF_footer_blank` on a concrete one-image
session. -/
theorem generatePDF_footer_blank_witness :
    (generatePDF sessionOne).2.1 = some [pageOk] ∧
      ∀ p ∈ [pageOk], p.footer = footerStamp :=
  ⟨generatePDF_sessionOne_doc,
    generatePDF_footer_blank sessionOne [pageOk] generatePDF_sessionOne_doc⟩

lemma foldl_syncStep (l : List ImportFile) :
    ∀ acc : Nat × List Event × List ImportFile,
      l.foldl syncStep acc =
        (acc.1 + l.countP (fun f => decide (5 * 1024 * 1024 < f.size)),
          acc.2.1 ++ (l.filter (fun f => decide (5 * 1024 * 1024 < f.size))).map
            (fun _ => Event.toast "File too large"),
          acc.2.2 ++ l.filter (fun f => !decide (5 * 1024 * 1024 < f.size))) := by
  induction l with
  | nil => intro acc; simp
  | cons f l ih =>
    intro acc
    rw [List.foldl_cons, ih]
    by_cases hf : 5 * 1024 * 1024 < f.size <;>
      simp [syncStep, hf, List.countP_cons, List.filter_cons, List.append_assoc] <;>
      omega

lemma foldl_asyncStep_images (T : Nat) (l : List ImportFile) :
    ∀ st : FState,
      (l.foldl (asyncStep T) st).images =
        st.images ++ (l.filter (fun f => f.readOk && f.loads && f.ctxOk)).map resizeFile := by
  induction l with
  | nil => intro st; simp
  | cons f l ih =>
    intro st
    rw [List.foldl_cons, ih]
    by_cases h1 : f.readOk <;> by_cases h2 : f.loads <;> by_cases h3 : f.ctxOk <;>
      simp [asyncStep, h1, h2, h3, List.filter_cons, List.append_assoc]

lemma foldl_asyncStep_tooLarge (T : Nat) (l : List ImportFile) :
    ∀ st : FState,
      countToast "File too large" (l.foldl (asyncStep T) st).events =
        countToast "File too large" st.events := by
  induction l with
  | nil => intro st; rfl
  | cons f l ih =>
    intro st
    rw [List.foldl_cons, ih]
    by_cases h1 : f.readOk <;> by_cases h2 : f.loads <;> by_cases h3 : f.ctxOk <;>
      simp [asyncStep, countToast, h1, h2, h3, List.countP_append, apply_ite
        (List.countP fun e => e == Event.toast "File too large")]

lemma sizeOk_not_oversized (f : ImportFile) :
    (!decide (5 * 1024 * 1024 < f.size)) = decide (f.size ≤ 5 * 1024 * 1024) := by
  by_cases h : 5 * 1024 * 1024 < f.size <;> simp [h] <;> omega

/-- C8: during import, the queue receives exactly the normalized bitmaps of
the accepted files that pass the 5 MB size check and decode successfully,
in order - every oversized file contributes nothing while the other files
of the batch are still processed - and each oversized file produces exactly
one "File too large" warning toast. -/
theorem handleFileSelect_oversized_skipped (files : List ImportFile) :
    (handleFileSelect files).images =
      ((files.take 10).filter
        (fun f => decide (f.size ≤ 5 * 1024 * 1024) && (f.readOk && f.loads && f.ctxOk))).map
        resizeFile ∧
      countToast "File too large" (handleFileSelect files).events =
        (files.take 10).countP (fun f => decide (5 * 1024 * 1024 < f.size)) := by
  by_cases hlen : files.length = 0
  · have hnil : files = [] := List.length_eq_zero.mp hlen
    subst hnil
    simp [handleFileSelect, countToast]
  · unfold handleFileSelect
    rw [if_neg hlen]
    show ((syncPhase (files.take 10)).2.2.foldl (asyncStep (files.take 10).length)
        ⟨(syncPhase (files.take 10)).1, [],
          (if 10 < files.length then [Event.toast "Too many files"] else []) ++
            (syncPhase (files.take 10)).2.1⟩).images = _ ∧ _
    unfold syncPhase
    rw [foldl_syncStep (files.take 10) (0, [], [])]
    constructor
    · rw [foldl_asyncStep_images]
      show [] ++ (((files.take 10).filter (fun f => !decide (5 * 1024 * 1024 < f.size))).filter
          (fun f => f.readOk && f.loads && f.ctxOk)).map resizeFile = _
      rw [List.nil_append, List.filter_filter]
      congr 1
      apply List.filter_congr
      intro f _
      by_cases hs : 5 * 1024 * 1024 < f.size
      · have hs1 : decide (5 * 1024 * 1024 < f.size) = true := by simp [hs]
        have hs2 : decide (f.size ≤ 5 * 1024 * 1024) = false := by simp; omega
        rw [hs1, hs2]
        cases f.readOk <;> cases f.loads <;> cases f.ctxOk <;> rfl
      · have hs1 : decide (5 * 1024 * 1024 < f.size) = false := by simp [hs]
        have hs2 : decide (f.size ≤ 5 * 1024 * 1024) = true := by simp; omega
        rw [hs1, hs2]
        cases f.readOk <;> cases f.loads <;> cases f.ctxOk <;> rfl
    · rw [foldl_asyncStep_tooLarge]
      show countToast "File too large"
          ((if 10 < files.length then [Event.toast "Too many files"] else []) ++
            ((files.take 10).foldl syncStep (0, [], [])).2.1) = _
      rw [foldl_syncStep (files.take 10) (0, [], [])]
      show countToast "File too large"
          ((if 10 < files.length then [Event.toast "Too many files"] else []) ++
            (((files.take 10).filter (fun f => decide (5 * 1024 * 1024 < f.size))).map
              (fun _ => Event.toast "File too large"))) = _
      have h1 : List.countP (fun e => e == Event.toast "File too large")
          (((files.take 10).filter (fun f => decide (5 * 1024 * 1024 < f.size))).map
            (fun _ => Event.toast "File too large")) =
          (files.take 10).countP (fun f => decide (5 * 1024 * 1024 < f.size)) := by
        rw [List.countP_map]
        simp [Function.comp_def, List.countP_eq_length_filter]
      unfold countToast
      rw [List.countP_append, h1]
      have h0 : List.countP (fun e => e == Event.toast "File too large")
          (if 10 < files.length then [Event.toast "Too many files"] else []) = 0 := by
        split_ifs <;> simp
      rw [h0, Nat.zero_add]

/-- A small valid import file. -/
def fileOk : ImportFile :=
  { size := 1000, readOk := true, loads := true, ctxOk := true, width := 100, height := 100 }

/-- An oversized (6 MB) import file. -/
def fileBig : ImportFile :=
  { size := 6 * 1024 * 1024, readOk := true, loads := true, ctxOk := true,
    width := 100, height := 100 }

/-- C4 (code bug): the aggregate "Images Loaded" report does not report the
number of images successfully added.  For the batch `[fileOk, fileBig]`
exactly one image is added, yet the single aggregate report carries count 2
(`loadedCount` also counts the skipped oversized file, and the toast text
still says "images added successfully"); and for the batch `[fileBig]` all
files finish but no aggregate report is emitted at all, because only the
image-load path checks `loadedCount === totalFiles`. -/
theorem handleFileSelect_report_counts_skipped_files :
    aggregateReports (handleFileSelect [fileOk, fileBig]).events = [2] ∧
      (handleFileSelect [fileOk, fileBig]).images.length = 1 ∧
      aggregateReports (handleFileSelect [fileBig]).events = [] ∧
      (handleFileSelect [fileBig]).images = [] := by
  refine ⟨?_, ?_, ?_, ?_⟩ <;> rfl
